import Mathlib

/-!
Verification of the `uuidcat` repository: a UUIDv7 variant that embeds an
8-bit category tag in bits 68-75 of the 128-bit value, together with a
process-wide category registry mapping symbolic names to integer codes.

The embedding follows `src/uuidcat/uuidcat.py`, `src/uuidcat/category_provider.py`
and `src/uuidcat/category.py`.  Python's unbounded integers are modelled as
`Nat` (the UUID value is always non-negative); enum member codes are `Int`
(Python ints, possibly negative before the range check).  Standard-library
collaborators (`uuid.UUID` parsing and variant logic, `json.loads`, the
`enum.Enum` functional API, `time.gmtime`/`time.strftime`) are modelled from
their documented CPython/glibc behaviour, noted at each definition.
-/

namespace Uuidcat

/-- A member of a category enumeration: a name bound to an integer code.
Mirrors a Python `Enum` member (`.name`, `.value`). -/
structure CatMember where
  name : String
  value : Int
deriving DecidableEq

/-- A category domain: the canonical members of a Python `Enum` class, in
definition order.  Aliases (later names with a duplicate value) are not
members, matching Python `Enum` semantics. -/
abbrev CategoryEnum := List CatMember

/-- Lookup by code, mirroring `Category._value2member_map_`: the canonical
member for a value is the first member defined with that value. -/
def value2member (dom : CategoryEnum) (v : Int) : Option CatMember :=
  dom.find? (fun m => m.value == v)

/-- The built-in default domain from `src/uuidcat/category.py`. -/
def Category : CategoryEnum :=
  [⟨"UNKNOWN", 0⟩, ⟨"TYPE_A", 1⟩, ⟨"TYPE_B", 2⟩, ⟨"TYPE_C", 3⟩]

/-- The registry's single stored value: `CategoryProvider._category_enum`. -/
structure ProviderState where
  category_enum : Option CategoryEnum
deriving DecidableEq

/-- `CategoryProvider.set_categories`: replaces the stored domain. -/
def set_categories (_st : ProviderState) (category_enum : CategoryEnum) : ProviderState :=
  ⟨some category_enum⟩

/-- `CategoryProvider.get_categories`: the stored domain, or the built-in
default when unset; does not mutate the state. -/
def get_categories (st : ProviderState) : CategoryEnum :=
  st.category_enum.getD Category

/-- `CategoryProvider.reset`: clears the stored domain. -/
def reset (_st : ProviderState) : ProviderState :=
  ⟨none⟩

def _UUID_VERSION : Nat := 7

def _UUID_VARIANT_RFC4122_BITS : Nat := 0b10

/-- The four variant classes of `uuid.UUID.variant` (CPython `uuid` module). -/
inductive PyUUIDVariant
  | reservedNCS
  | rfc4122
  | reservedMicrosoft
  | reservedFuture
deriving DecidableEq

/-- Modelled from CPython `uuid.UUID.variant`: classifies by bits 63, 62, 61. -/
def uuid_variant (n : Nat) : PyUUIDVariant :=
  if n &&& (0x8000 <<< 48) = 0 then PyUUIDVariant.reservedNCS
  else if n &&& (0x4000 <<< 48) = 0 then PyUUIDVariant.rfc4122
  else if n &&& (0x2000 <<< 48) = 0 then PyUUIDVariant.reservedMicrosoft
  else PyUUIDVariant.reservedFuture

/-- Modelled from CPython `uuid.UUID.version`: the version nibble, meaningful
(and returned) only when the variant is RFC 4122, else `None`. -/
def uuid_version (n : Nat) : Option Nat :=
  if uuid_variant n = PyUUIDVariant.rfc4122 then some ((n >>> 76) &&& 0xF) else none

/-- `int.from_bytes(bytes, "big")`. -/
def from_bytes (l : List Nat) : Nat :=
  l.foldl (fun acc b => acc * 256 + b) 0

/-- `UUIDv7Cat.new`, from `src/uuidcat/uuidcat.py` lines 85-124.  The wall
clock and the random source are explicit inputs: `unix_ts_ms` is the current
time in milliseconds, `entropy` the byte stream backing `os.urandom`; the
returned list is the stream left after the call, so a failing path that
returns `entropy` unchanged has drawn no randomness.  `uuid_int & ~(0xFF << 68)`
on a non-negative Python int clears bits 68-75, rendered here as subtracting
`uuid_int &&& (0xFF <<< 68)`; `cat.value & 0xFF` on a Python int equals
`(cat.value % 256).toNat` (mathematical mod). -/
def new (unix_ts_ms : Nat) (entropy : List Nat) (cat : CatMember) :
    Except String Nat × List Nat :=
  if ¬ (0 ≤ cat.value ∧ cat.value ≤ 255) then
    (Except.error "Category value must be in range 0..255", entropy)
  else
    let ts_field := unix_ts_ms &&& ((1 <<< 48) - 1)
    let rand_bytes := entropy.take 10
    let rand_int := from_bytes rand_bytes
    let rand_a := rand_int >>> 62 &&& ((1 <<< 12) - 1)
    let rand_b := rand_int &&& ((1 <<< 62) - 1)
    let cat_field := (cat.value % 256).toNat
    let uuid_int :=
      (ts_field <<< 80) ||| (_UUID_VERSION <<< 76) ||| (rand_a <<< 64) |||
        (_UUID_VARIANT_RFC4122_BITS <<< 62) ||| rand_b
    let cleared_int := uuid_int - (uuid_int &&& (0xFF <<< 68))
    (Except.ok (cleared_int ||| (cat_field <<< 68)), entropy.drop 10)

/-- Clearing bits 68-75 and injecting a tag byte, the pattern
`(base & ~(0xFF << 68)) | (t << 68)` used by `new` and by the test suite to
construct identifiers with a chosen tag. -/
def setTag (base : Nat) (t : Nat) : Nat :=
  (base - (base &&& (0xFF <<< 68))) ||| (t <<< 68)

/-- Fuel-bounded replacement of every occurrence of `pat` (scanning left to
right), modelling Python `str.replace` for a non-empty pattern. -/
def replaceAux (pat rep : List Char) : Nat → List Char → List Char
  | 0, l => l
  | _ + 1, [] => []
  | fuel + 1, c :: rest =>
    if pat.isPrefixOf (c :: rest) then
      rep ++ replaceAux pat rep fuel ((c :: rest).drop pat.length)
    else
      c :: replaceAux pat rep fuel rest

/-- Python `str.replace`, modelled for the non-empty patterns used here. -/
def strReplace (s pat rep : String) : String :=
  ⟨replaceAux pat.data rep.data s.data.length s.data⟩

def leftBrace : Char := Char.ofNat 123

def rightBrace : Char := Char.ofNat 125

/-- Python `str.strip` with a brace character set: drops leading and trailing
braces. -/
def stripBraces (s : String) : String :=
  ⟨((s.data.dropWhile fun c => c == leftBrace || c == rightBrace).reverse.dropWhile
      fun c => c == leftBrace || c == rightBrace).reverse⟩

/-- One hexadecimal digit, as accepted by `int(x, 16)`. -/
def hexDigit? (c : Char) : Option Nat :=
  if '0' ≤ c ∧ c ≤ '9' then some (c.toNat - 48)
  else if 'a' ≤ c ∧ c ≤ 'f' then some (c.toNat - 87)
  else if 'A' ≤ c ∧ c ≤ 'F' then some (c.toNat - 55)
  else none

/-- Parsing a string of hexadecimal digits, the core of `int(hex, 16)` (the
sign, base-prefix and underscore leniencies of Python `int` are not modelled). -/
def hexToNat? (l : List Char) : Option Nat :=
  l.foldl
    (fun acc c =>
      match acc, hexDigit? c with
      | some a, some d => some (a * 16 + d)
      | _, _ => none)
    (some 0)

/-- Modelled from CPython `uuid.UUID.__init__` with a `hex` argument: remove
every `urn:` and `uuid:`, strip surrounding braces, remove hyphens, require
exactly 32 hexadecimal digits. -/
def uuid_from_string (s : String) : Option Nat :=
  let h := strReplace (strReplace s "urn:" "") "uuid:" ""
  let h := stripBraces h
  let h := strReplace h "-" ""
  if h.data.length = 32 then hexToNat? h.data else none

/-- Input to the static codec methods: either a textual candidate or an
already-typed value (`uuid.UUID` or `UUIDv7Cat`, both carrying a 128-bit int). -/
inductive UUIDInput
  | str (s : String)
  | val (n : Nat)

/-- `UUIDv7Cat._basic_validity_check`, from `src/uuidcat/uuidcat.py`
lines 126-141: parse textual input (unparsable text yields `None`), then
accept exactly version 7 with RFC 4122 variant. -/
def _basic_validity_check (u : UUIDInput) : Option Nat :=
  match u with
  | UUIDInput.str s =>
    match uuid_from_string s with
    | none => none
    | some n =>
      if uuid_version n = some _UUID_VERSION ∧ uuid_variant n = PyUUIDVariant.rfc4122 then
        some n
      else none
  | UUIDInput.val n =>
    if uuid_version n = some _UUID_VERSION ∧ uuid_variant n = PyUUIDVariant.rfc4122 then
      some n
    else none

/-- `UUIDv7Cat.get_category`, from `src/uuidcat/uuidcat.py` lines 143-160:
run the basic check, extract bits 68-75, look the tag up in the current
registry domain. -/
def get_category (st : ProviderState) (u : UUIDInput) : Option CatMember :=
  let dom := get_categories st
  match _basic_validity_check u with
  | some n => value2member dom (((n >>> 68) &&& 0xFF : Nat) : Int)
  | none => none

/-- `UUIDv7Cat.is_valid`, from `src/uuidcat/uuidcat.py` lines 184-195. -/
def is_valid (st : ProviderState) (u : UUIDInput) : Bool :=
  (get_category st u).isSome

/-- The Python exceptions arising in `set_categories_from_json`. -/
inductive PyErr
  | valueError (msg : String)
  | typeError (msg : String)
  | jsonDecodeError (msg : String)
deriving DecidableEq

/-- An exception as raised, with its `__cause__` (set by `raise ... from e`). -/
structure PyRaised where
  err : PyErr
  cause : Option PyErr
deriving DecidableEq

/-- Modelled from CPython `json.loads` output, restricted to the shapes the
claims need: a JSON object of integer-valued fields, or any non-mapping value
(number, boolean, null), which the `Enum` functional API rejects with a
`TypeError`. -/
inductive PyJson
  | obj (fields : List (String × Int))
  | nonObj
deriving DecidableEq

/-- Modelled from CPython `enum._is_sunder`: a name of length above two with
single leading and trailing underscores. -/
def _is_sunder (s : List Char) : Bool :=
  decide (2 < s.length) &&
    (s.getD 0 ' ' == '_') && !(s.getD 1 ' ' == '_') &&
    (s.getD (s.length - 1) ' ' == '_') && !(s.getD (s.length - 2) ' ' == '_')

/-- Modelled from CPython `enum._is_dunder`: length above four, double leading
and trailing underscores, no triple underscore at either end. -/
def _is_dunder (s : List Char) : Bool :=
  decide (4 < s.length) &&
    (s.getD 0 ' ' == '_') && (s.getD 1 ' ' == '_') && !(s.getD 2 ' ' == '_') &&
    (s.getD (s.length - 1) ' ' == '_') && (s.getD (s.length - 2) ' ' == '_') &&
    !(s.getD (s.length - 3) ' ' == '_')

/-- Modelled from CPython `enum._is_private`: a name longer than and starting
with the class-private prefix `_ClassName__`, not ending in a double
underscore. -/
def _is_private (cls_name : String) (s : List Char) : Bool :=
  let pattern := ('_' :: cls_name.data) ++ ['_', '_']
  decide (pattern.length < s.length) && pattern.isPrefixOf s &&
    (!(s.getD (s.length - 1) ' ' == '_') || !(s.getD (s.length - 2) ' ' == '_'))

/-- The sunder service names `_EnumDict.__setitem__` accepts (CPython 3.11)
instead of raising the reserved-names `ValueError`. -/
def _sunder_allowed : List String :=
  ["_order_", "_generate_next_value_", "_numeric_repr_", "_missing_", "_ignore_",
    "_iter_member_", "_iter_member_by_value_", "_iter_member_by_def_"]

/-- Modelled from CPython `_EnumDict.__setitem__`, applied to each field in
order: a class-private name is checked first and becomes a plain class
attribute; a sunder name outside the allowed service list raises
`ValueError`; the service name `_ignore_` with an integer value raises
`TypeError` (`list(int)`) at insertion; the other service names and dunder
names become plain class attributes, not members; every other name is
recorded as a member name (keys are unique, coming from a parsed JSON
object). -/
def enumDictInsert (cls_name : String) :
    List (String × Int) → Except PyErr (List (String × Int))
  | [] => Except.ok []
  | (nm, v) :: rest =>
    if _is_private cls_name nm.data then enumDictInsert cls_name rest
    else if _is_sunder nm.data then
      if _sunder_allowed.contains nm then
        if nm == "_ignore_" then
          Except.error (PyErr.typeError "int object is not iterable")
        else enumDictInsert cls_name rest
      else
        Except.error (PyErr.valueError "_sunder_ names are reserved for future Enum use")
    else if _is_dunder nm.data then enumDictInsert cls_name rest
    else
      match enumDictInsert cls_name rest with
      | Except.ok tl => Except.ok ((nm, v) :: tl)
      | Except.error e => Except.error e

/-- Member creation from the recorded member names, in order: a later name
with an already-seen value becomes an alias, not a member. -/
def enumMembers : CategoryEnum → List (String × Int) → CategoryEnum
  | members, [] => members
  | members, (nm, v) :: rest =>
    if members.any fun m => m.value == v then enumMembers members rest
    else enumMembers (members ++ [⟨nm, v⟩]) rest

/-- `Enum(enum_name, categories)` on a parsed JSON value, modelled from the
CPython 3.11 functional API for integer-valued mappings: the insertion phase
runs first (sunder `ValueError`, `_ignore_` `TypeError`); at class creation a
member named `mro` or the empty name raises `ValueError`, then an `_order_`
key with an integer value raises `TypeError` (verified precedence); finally
members are created with value aliasing. -/
def pyEnum (enum_name : String) (j : PyJson) : Except PyErr CategoryEnum :=
  match j with
  | PyJson.obj fields =>
    match enumDictInsert enum_name fields with
    | Except.error e => Except.error e
    | Except.ok member_names =>
      if member_names.any fun p => p.1 == "mro" || p.1 == "" then
        Except.error (PyErr.valueError "invalid enum member name(s)")
      else if fields.any fun p => p.1 == "_order_" then
        Except.error (PyErr.typeError "int object is not iterable")
      else Except.ok (enumMembers [] member_names)
  | PyJson.nonObj => Except.error (PyErr.typeError "object is not iterable")

/-- `CategoryProvider.set_categories_from_json`, from
`src/uuidcat/category_provider.py` lines 29-45.  The payload enters through
the outcome of `json.loads` (`parsed`); the `except (json.JSONDecodeError,
TypeError)` clause wraps exactly those two exception classes in a `ValueError`
with the original as `__cause__`; any other exception (notably a `ValueError`
from `Enum` construction) propagates unwrapped.  On any failure the stored
registry state is untouched. -/
def set_categories_from_json (parsed : Except PyErr PyJson) (enum_name : String)
    (st : ProviderState) : Except PyRaised ProviderState :=
  match parsed with
  | Except.error e =>
    match e with
    | PyErr.jsonDecodeError m =>
      Except.error ⟨PyErr.valueError ("Failed to load categories from JSON payload: " ++ m),
        some e⟩
    | _ => Except.error ⟨e, none⟩
  | Except.ok j =>
    match pyEnum enum_name j with
    | Except.ok dynamic_enum_class => Except.ok (set_categories st dynamic_enum_class)
    | Except.error e =>
      match e with
      | PyErr.typeError m =>
        Except.error ⟨PyErr.valueError ("Failed to load categories from JSON payload: " ++ m),
          some e⟩
      | _ => Except.error ⟨e, none⟩

theorem and_shl_comm (n m j : Nat) : n &&& (m <<< j) = ((n >>> j) &&& m) <<< j := by
  apply Nat.eq_of_testBit_eq
  intro i
  simp only [Nat.testBit_and, Nat.testBit_shiftLeft, Nat.testBit_shiftRight]
  by_cases h : j ≤ i
  · simp [h, Nat.add_sub_cancel' h, Bool.and_left_comm, Bool.and_comm]
  · simp [h]

theorem and_mask_extract (n j k : Nat) :
    n &&& ((2 ^ k - 1) <<< j) = n / 2 ^ j % 2 ^ k * 2 ^ j := by
  rw [and_shl_comm, Nat.and_pow_two_sub_one_eq_mod, Nat.shiftRight_eq_div_pow,
    Nat.shiftLeft_eq]

theorem and_two_pow_eq_zero_iff (n k : Nat) : n &&& 2 ^ k = 0 ↔ n / 2 ^ k % 2 = 0 := by
  have hbit : n &&& 2 ^ k = 0 ↔ n.testBit k = false := by
    constructor
    · intro h
      by_contra hb
      have hb' : n.testBit k = true := by
        cases htb : n.testBit k with
        | false => exact absurd htb hb
        | true => rfl
      have : (n &&& 2 ^ k).testBit k = true := by
        simp [Nat.testBit_and, hb', Nat.testBit_two_pow_self]
      rw [h] at this
      simp at this
    · intro h
      apply Nat.eq_of_testBit_eq
      intro i
      simp only [Nat.testBit_and, Nat.zero_testBit, Nat.testBit_two_pow]
      by_cases hik : k = i
      · subst hik; simp [h]
      · simp [hik]
  rw [hbit, Nat.testBit_to_div_mod]
  constructor
  · intro h
    have := of_decide_eq_false h
    omega
  · intro h
    apply decide_eq_false
    omega

theorem extract_eq (n j k : Nat) : n >>> j &&& (2 ^ k - 1) = n / 2 ^ j % 2 ^ k := by
  rw [Nat.and_pow_two_sub_one_eq_mod, Nat.shiftRight_eq_div_pow]

/-- Closed arithmetic form of clearing bits 68-75 and injecting a tag byte. -/
theorem setTag_closed (n t : Nat) (ht : t < 256) :
    setTag n t = n / 2 ^ 76 * 2 ^ 76 + t * 2 ^ 68 + n % 2 ^ 68 := by
  simp only [setTag]
  have hmask : n &&& (0xFF <<< 68) = n / 2 ^ 68 % 2 ^ 8 * 2 ^ 68 := by
    have h255 : (0xFF : Nat) = 2 ^ 8 - 1 := by norm_num
    rw [h255, and_mask_extract]
  have hL : n % 2 ^ 68 < 2 ^ 68 := Nat.mod_lt _ (by norm_num)
  have hcl : n - (n &&& (0xFF <<< 68)) = 2 ^ 76 * (n / 2 ^ 76) + n % 2 ^ 68 := by
    rw [hmask]; omega
  rw [hcl, Nat.shiftLeft_eq]
  have h1 : 2 ^ 76 * (n / 2 ^ 76) + n % 2 ^ 68 =
      2 ^ 76 * (n / 2 ^ 76) ||| n % 2 ^ 68 :=
    Nat.mul_add_lt_is_or (by omega) _
  have h2 : 2 ^ 68 * t + n % 2 ^ 68 = 2 ^ 68 * t ||| n % 2 ^ 68 :=
    Nat.mul_add_lt_is_or hL _
  have h3 : 2 ^ 76 * (n / 2 ^ 76) + (2 ^ 68 * t + n % 2 ^ 68) =
      2 ^ 76 * (n / 2 ^ 76) ||| (2 ^ 68 * t + n % 2 ^ 68) :=
    Nat.mul_add_lt_is_or (by omega) _
  calc 2 ^ 76 * (n / 2 ^ 76) + n % 2 ^ 68 ||| t * 2 ^ 68
      = 2 ^ 76 * (n / 2 ^ 76) ||| n % 2 ^ 68 ||| 2 ^ 68 * t := by
        rw [← h1]; ring_nf
    _ = 2 ^ 76 * (n / 2 ^ 76) ||| (2 ^ 68 * t ||| n % 2 ^ 68) := by
        rw [Nat.or_assoc, Nat.or_comm (n % 2 ^ 68)]
    _ = 2 ^ 76 * (n / 2 ^ 76) + (2 ^ 68 * t + n % 2 ^ 68) := by
        rw [← h2, ← h3]
    _ = n / 2 ^ 76 * 2 ^ 76 + t * 2 ^ 68 + n % 2 ^ 68 := by ring

/-- Closed arithmetic form of the or-assembled `uuid_int` of `new`. -/
theorem assembly (A ra rb : Nat) (hra : ra < 2 ^ 12) (hrb : rb < 2 ^ 62) :
    (A <<< 80) ||| (7 <<< 76) ||| (ra <<< 64) ||| (2 <<< 62) ||| rb =
      A * 2 ^ 80 + 7 * 2 ^ 76 + ra * 2 ^ 64 + 2 ^ 63 + rb := by
  rw [Nat.shiftLeft_eq, Nat.shiftLeft_eq, Nat.shiftLeft_eq, Nat.shiftLeft_eq]
  have s1 : A * 2 ^ 80 ||| 7 * 2 ^ 76 = 2 ^ 76 * (16 * A + 7) := by
    rw [show A * 2 ^ 80 = 2 ^ 80 * A from by ring,
      ← Nat.mul_add_lt_is_or (show (7 : Nat) * 2 ^ 76 < 2 ^ 80 from by norm_num) A]
    ring
  have s2 : 2 ^ 76 * (16 * A + 7) ||| ra * 2 ^ 64 =
      2 ^ 64 * (2 ^ 12 * (16 * A + 7) + ra) := by
    rw [← Nat.mul_add_lt_is_or (show ra * 2 ^ 64 < 2 ^ 76 from by omega) (16 * A + 7)]
    ring
  have s3 : 2 ^ 64 * (2 ^ 12 * (16 * A + 7) + ra) ||| 2 * 2 ^ 62 =
      2 ^ 62 * (4 * (2 ^ 12 * (16 * A + 7) + ra) + 2) := by
    rw [← Nat.mul_add_lt_is_or (show (2 : Nat) * 2 ^ 62 < 2 ^ 64 from by norm_num)
      (2 ^ 12 * (16 * A + 7) + ra)]
    ring
  rw [s1, s2, s3, ← Nat.mul_add_lt_is_or hrb (4 * (2 ^ 12 * (16 * A + 7) + ra) + 2)]
  ring

/-- The value and the remaining entropy of a successful `new` call, in closed
arithmetic form. -/
theorem new_ok_val (t : Nat) (e : List Nat) (c : CatMember)
    (h0 : 0 ≤ c.value) (h1 : c.value ≤ 255) :
    new t e c =
      (Except.ok (t % 2 ^ 48 * 2 ^ 80 + 7 * 2 ^ 76 + (c.value % 256).toNat * 2 ^ 68 +
          from_bytes (e.take 10) / 2 ^ 62 % 16 * 2 ^ 64 + 2 ^ 63 +
          from_bytes (e.take 10) % 2 ^ 62),
        e.drop 10) := by
  have hcond : ¬¬(0 ≤ c.value ∧ c.value ≤ 255) := fun hc => hc ⟨h0, h1⟩
  have hcf : (c.value % 256).toNat < 256 := by
    have h2 : (0 : Int) ≤ c.value % 256 := Int.emod_nonneg _ (by norm_num)
    have h3 : c.value % 256 < 256 := Int.emod_lt_of_pos _ (by norm_num)
    omega
  unfold new
  rw [if_neg hcond]
  simp only [_UUID_VERSION, _UUID_VARIANT_RFC4122_BITS]
  generalize from_bytes (e.take 10) = r
  have hshift : ∀ k : Nat, (1 <<< k) - 1 = 2 ^ k - 1 := fun k => by
    rw [Nat.shiftLeft_eq, one_mul]
  simp only [hshift, Nat.and_pow_two_sub_one_eq_mod, extract_eq,
    Nat.shiftRight_eq_div_pow]
  rw [assembly (t % 2 ^ 48) (r / 2 ^ 62 % 2 ^ 12) (r % 2 ^ 62)
    (Nat.mod_lt _ (by norm_num)) (Nat.mod_lt _ (by norm_num))]
  show (Except.ok (setTag _ _), e.drop 10) = _
  rw [setTag_closed _ _ hcf]
  refine congrArg (fun x => (Except.ok x, e.drop 10)) ?_
  omega

/-- The failing path of `new`: the range check fires before any randomness is
taken from the entropy stream, which is returned untouched. -/
theorem new_err (t : Nat) (e : List Nat) (c : CatMember)
    (h : c.value < 0 ∨ 255 < c.value) :
    new t e c = (Except.error "Category value must be in range 0..255", e) := by
  unfold new
  rw [if_pos (fun hc => by omega)]

theorem uuid_variant_rfc4122_iff (n : Nat) :
    uuid_variant n = PyUUIDVariant.rfc4122 ↔ n / 2 ^ 62 % 4 = 2 := by
  unfold uuid_variant
  have e1 : (0x8000 <<< 48 : Nat) = 2 ^ 63 := by norm_num [Nat.shiftLeft_eq]
  have e2 : (0x4000 <<< 48 : Nat) = 2 ^ 62 := by norm_num [Nat.shiftLeft_eq]
  have e3 : (0x2000 <<< 48 : Nat) = 2 ^ 61 := by norm_num [Nat.shiftLeft_eq]
  rw [e1, e2, e3]
  by_cases h63 : n / 2 ^ 63 % 2 = 0
  · rw [if_pos ((and_two_pow_eq_zero_iff n 63).mpr h63)]
    constructor
    · intro hv; exact PyUUIDVariant.noConfusion hv
    · intro h4; exfalso; omega
  · rw [if_neg (fun hc => h63 ((and_two_pow_eq_zero_iff n 63).mp hc))]
    by_cases h62 : n / 2 ^ 62 % 2 = 0
    · rw [if_pos ((and_two_pow_eq_zero_iff n 62).mpr h62)]
      constructor
      · intro _; omega
      · intro _; rfl
    · rw [if_neg (fun hc => h62 ((and_two_pow_eq_zero_iff n 62).mp hc))]
      constructor
      · intro hv
        exfalso
        by_cases h61 : n &&& 2 ^ 61 = 0
        · rw [if_pos h61] at hv; exact PyUUIDVariant.noConfusion hv
        · rw [if_neg h61] at hv; exact PyUUIDVariant.noConfusion hv
      · intro h4; exfalso; omega

theorem uuid_version_of_rfc4122 (n : Nat) (h : uuid_variant n = PyUUIDVariant.rfc4122) :
    uuid_version n = some ((n >>> 76) &&& 0xF) := by
  unfold uuid_version
  rw [if_pos h]

/-- The basic validity check on a typed value accepts exactly the values with
version nibble 7 and RFC 4122 variant bits. -/
theorem basic_check_val_iff (n : Nat) :
    _basic_validity_check (UUIDInput.val n) = some n ↔
      ((n >>> 76) &&& 0xF = 7 ∧ (n >>> 62) &&& 3 = 2) := by
  have hbits : (n >>> 62) &&& 3 = n / 2 ^ 62 % 4 := by
    rw [show (3 : Nat) = 2 ^ 2 - 1 from by norm_num, extract_eq]
    norm_num
  simp only [_basic_validity_check]
  by_cases hvar : uuid_variant n = PyUUIDVariant.rfc4122
  · rw [uuid_version_of_rfc4122 n hvar]
    by_cases hv7 : (n >>> 76) &&& 0xF = 7
    · rw [if_pos ⟨by rw [hv7]; rfl, hvar⟩]
      constructor
      · intro _
        exact ⟨hv7, by rw [hbits]; exact (uuid_variant_rfc4122_iff n).mp hvar⟩
      · intro _; rfl
    · rw [if_neg (fun hc => hv7 (by simpa [_UUID_VERSION] using hc.1))]
      constructor
      · intro hcontra; exact Option.noConfusion hcontra
      · intro hb; exact absurd hb.1 hv7
  · rw [if_neg (fun hc => hvar hc.2)]
    constructor
    · intro hcontra; exact Option.noConfusion hcontra
    · intro hb
      exact absurd ((uuid_variant_rfc4122_iff n).mpr (by rw [← hbits]; exact hb.2)) hvar

/-- The basic validity check on a typed value returns either `none` or the
value itself. -/
theorem basic_check_val_cases (n : Nat) :
    _basic_validity_check (UUIDInput.val n) = none ∨
      _basic_validity_check (UUIDInput.val n) = some n := by
  simp only [_basic_validity_check]
  by_cases h : uuid_version n = some _UUID_VERSION ∧ uuid_variant n = PyUUIDVariant.rfc4122
  · right; rw [if_pos h]
  · left; rw [if_neg h]

theorem find_first_of_nodup (l : CategoryEnum) (c : CatMember)
    (hnd : (l.map CatMember.value).Nodup) (hc : c ∈ l) :
    l.find? (fun m => m.value == c.value) = some c := by
  induction l with
  | nil => cases hc
  | cons hd tl ih =>
    rcases List.mem_cons.mp hc with hceq | hctl
    · subst hceq
      rw [List.find?_cons_of_pos _ (by simp)]
    · have hne : hd.value ≠ c.value := by
        intro hvv
        have hnotin := (List.nodup_cons.mp hnd).1
        exact hnotin (hvv ▸ List.mem_map_of_mem CatMember.value hctl)
      rw [List.find?_cons_of_neg _ (by simp [hne])]
      exact ih (List.nodup_cons.mp hnd).2 hctl

theorem value2member_eq_none (l : CategoryEnum) (v : Int) (h : ∀ m ∈ l, m.value ≠ v) :
    value2member l v = none := by
  unfold value2member
  exact List.find?_eq_none.mpr fun m hm => by simp [h m hm]

theorem value2member_isSome (l : CategoryEnum) (v : Int) (h : ∃ m ∈ l, m.value = v) :
    (value2member l v).isSome := by
  unfold value2member
  rw [List.find?_isSome]
  obtain ⟨m, hm, hv⟩ := h
  exact ⟨m, hm, by simp [hv]⟩

theorem shr76_and (n : Nat) : (n >>> 76) &&& 0xF = n / 2 ^ 76 % 16 := by
  rw [show (0xF : Nat) = 2 ^ 4 - 1 from by norm_num, extract_eq]
  norm_num

theorem shr62_and (n : Nat) : (n >>> 62) &&& 3 = n / 2 ^ 62 % 4 := by
  rw [show (3 : Nat) = 2 ^ 2 - 1 from by norm_num, extract_eq]
  norm_num

theorem shr68_and (n : Nat) : (n >>> 68) &&& 0xFF = n / 2 ^ 68 % 256 := by
  rw [show (0xFF : Nat) = 2 ^ 8 - 1 from by norm_num, extract_eq]
  norm_num

/-- Field extraction on the closed form of a minted value. -/
theorem mint_fields (V A cf ra4 rb : Nat)
    (hV : V = A * 2 ^ 80 + 7 * 2 ^ 76 + cf * 2 ^ 68 + ra4 * 2 ^ 64 + 2 ^ 63 + rb)
    (hcf : cf < 256) (hra4 : ra4 < 16) (hrb : rb < 2 ^ 62) :
    (V >>> 76) &&& 0xF = 7 ∧ (V >>> 62) &&& 3 = 2 ∧ (V >>> 68) &&& 0xFF = cf ∧
      (A < 2 ^ 48 → V >>> 80 = A) := by
  rw [shr76_and, shr62_and, shr68_and, Nat.shiftRight_eq_div_pow]
  refine ⟨by omega, by omega, by omega, fun hA => by omega⟩

theorem cat_cast (v : Int) (h0 : 0 ≤ v) (h1 : v ≤ 255) :
    (((v % 256).toNat : Nat) : Int) = v := by
  rw [Int.emod_eq_of_lt h0 (by omega), Int.toNat_of_nonneg h0]

theorem cat_field_lt (v : Int) : (v % 256).toNat < 256 := by
  have h2 : (0 : Int) ≤ v % 256 := Int.emod_nonneg _ (by norm_num)
  have h3 : v % 256 < 256 := Int.emod_lt_of_pos _ (by norm_num)
  omega

/-- Everything a successful `new` call guarantees about its result: the range
check passed, exactly ten entropy bytes were consumed, the value passes the
basic validity check, carries version 7, RFC 4122 variant bits, and the
category code in bits 68-75. -/
theorem mint_props (t : Nat) (e : List Nat) (c : CatMember) (n : Nat) (rest : List Nat)
    (hnew : new t e c = (Except.ok n, rest)) :
    (0 ≤ c.value ∧ c.value ≤ 255) ∧
      rest = e.drop 10 ∧
      _basic_validity_check (UUIDInput.val n) = some n ∧
      uuid_version n = some 7 ∧
      uuid_variant n = PyUUIDVariant.rfc4122 ∧
      (n >>> 76) &&& 0xF = 7 ∧ (n >>> 62) &&& 3 = 2 ∧
      (((n >>> 68) &&& 0xFF : Nat) : Int) = c.value := by
  have hrange : 0 ≤ c.value ∧ c.value ≤ 255 := by
    by_contra hc
    have herr := new_err t e c (by omega)
    rw [hnew] at herr
    simp at herr
  have hval := new_ok_val t e c hrange.1 hrange.2
  rw [hnew] at hval
  rw [Prod.mk.injEq] at hval
  have hn := Except.ok.inj hval.1
  have hrest := hval.2
  obtain ⟨hv7, hvb, htag, -⟩ :=
    mint_fields n (t % 2 ^ 48) ((c.value % 256).toNat)
      (from_bytes (e.take 10) / 2 ^ 62 % 16) (from_bytes (e.take 10) % 2 ^ 62)
      hn (cat_field_lt c.value) (Nat.mod_lt _ (by norm_num)) (Nat.mod_lt _ (by norm_num))
  have hvar : uuid_variant n = PyUUIDVariant.rfc4122 :=
    (uuid_variant_rfc4122_iff n).mpr (by rw [← shr62_and]; exact hvb)
  refine ⟨hrange, hrest, (basic_check_val_iff n).mpr ⟨hv7, hvb⟩, ?_, hvar, hv7, hvb, ?_⟩
  · rw [uuid_version_of_rfc4122 n hvar, hv7]
  · rw [htag]
    exact cat_cast c.value hrange.1 hrange.2

/-- Injecting any tag byte touches only bits 68-75: the version nibble and the
variant bits are unchanged, and the tag byte reads back. -/
theorem setTag_preserves (m tg : Nat) (htg : tg < 256) :
    (setTag m tg >>> 76) &&& 0xF = (m >>> 76) &&& 0xF ∧
      (setTag m tg >>> 62) &&& 3 = (m >>> 62) &&& 3 ∧
      (setTag m tg >>> 68) &&& 0xFF = tg := by
  rw [setTag_closed m tg htg]
  rw [shr76_and, shr76_and, shr62_and, shr62_and, shr68_and]
  refine ⟨by omega, by omega, by omega⟩

/-! The claims. -/

/-- C1: Round-trip: for every symbolic category member `c` of the currently
active domain whose integer code lies in 0..255, `get_category (new c)`
equals `c`, the registry's active domain being the same at mint and read
(the same `st` is used for both). -/
theorem C1_round_trip (st : ProviderState) (c : CatMember) (t : Nat) (e : List Nat)
    (n : Nat) (rest : List Nat)
    (hmem : c ∈ get_categories st)
    (hnd : ((get_categories st).map CatMember.value).Nodup)
    (h0 : 0 ≤ c.value) (h1 : c.value ≤ 255)
    (hnew : new t e c = (Except.ok n, rest)) :
    get_category st (UUIDInput.val n) = some c := by
  obtain ⟨-, -, hcheck, -, -, -, -, htag⟩ := mint_props t e c n rest hnew
  simp only [get_category, hcheck]
  rw [htag]
  exact find_first_of_nodup _ c hnd hmem

theorem C1_round_trip_witness :
    get_category ⟨none⟩ (UUIDInput.val (7 * 2 ^ 76 + 2 ^ 68 + 2 ^ 63)) =
      some ⟨"TYPE_A", 1⟩ :=
  C1_round_trip ⟨none⟩ ⟨"TYPE_A", 1⟩ 0 [] (7 * 2 ^ 76 + 2 ^ 68 + 2 ^ 63) []
    (by decide) (by decide) (by decide) (by decide) (by rfl)

/-- C2: every minted value has version nibble 7 (bits 76-79) and RFC 4122
variant bits 0b10 (bits 62-63), and injecting any 8-bit code into bits 68-75
never alters the version or variant bits. -/
theorem C2_version_variant_invariants (t : Nat) (e : List Nat) (c : CatMember)
    (n : Nat) (rest : List Nat)
    (hnew : new t e c = (Except.ok n, rest)) :
    uuid_version n = some 7 ∧ uuid_variant n = PyUUIDVariant.rfc4122 ∧
      (n >>> 76) &&& 0xF = 7 ∧ (n >>> 62) &&& 3 = 2 ∧
      ∀ m tg : Nat, tg < 256 →
        (setTag m tg >>> 76) &&& 0xF = (m >>> 76) &&& 0xF ∧
          (setTag m tg >>> 62) &&& 3 = (m >>> 62) &&& 3 ∧
          (setTag m tg >>> 68) &&& 0xFF = tg := by
  obtain ⟨-, -, -, hv, hvar, h76, h62, -⟩ := mint_props t e c n rest hnew
  exact ⟨hv, hvar, h76, h62, fun m tg htg => setTag_preserves m tg htg⟩

theorem C2_version_variant_invariants_witness :
    uuid_version (7 * 2 ^ 76 + 3 * 2 ^ 68 + 2 ^ 63) = some 7 ∧
      uuid_variant (7 * 2 ^ 76 + 3 * 2 ^ 68 + 2 ^ 63) = PyUUIDVariant.rfc4122 :=
  ⟨(C2_version_variant_invariants 0 [] ⟨"TYPE_C", 3⟩ (7 * 2 ^ 76 + 3 * 2 ^ 68 + 2 ^ 63) []
      (by rfl)).1,
    (C2_version_variant_invariants 0 [] ⟨"TYPE_C", 3⟩ (7 * 2 ^ 76 + 3 * 2 ^ 68 + 2 ^ 63) []
      (by rfl)).2.1⟩

/-- C3: `new` fails with the range error exactly when the supplied category
code is outside 0..255, the failing path returning the entropy stream
untouched (no randomness drawn); any in-range code (in particular 0 and 255)
succeeds. -/
theorem C3_range_enforcement (t : Nat) (e : List Nat) (c : CatMember) :
    ((c.value < 0 ∨ 255 < c.value) →
      new t e c = (Except.error "Category value must be in range 0..255", e)) ∧
      ((new t e c).1.isOk = true ↔ 0 ≤ c.value ∧ c.value ≤ 255) := by
  refine ⟨new_err t e c, ?_, ?_⟩
  · intro hok
    by_contra hc
    have herr := new_err t e c (by omega)
    rw [herr] at hok
    simp [Except.isOk, Except.toBool] at hok
  · intro hr
    rw [new_ok_val t e c hr.1 hr.2]
    rfl

theorem C3_range_enforcement_witness :
    (new 0 [] ⟨"UNKNOWN", 0⟩).1.isOk = true ∧
      (new 0 [] ⟨"MAX", 255⟩).1.isOk = true ∧
      new 0 [] ⟨"TOO_BIG", 256⟩ =
        (Except.error "Category value must be in range 0..255", []) :=
  ⟨(C3_range_enforcement 0 [] ⟨"UNKNOWN", 0⟩).2.mpr (by decide),
    (C3_range_enforcement 0 [] ⟨"MAX", 255⟩).2.mpr (by decide),
    (C3_range_enforcement 0 [] ⟨"TOO_BIG", 256⟩).1 (by decide)⟩

/-- C4: a value with version nibble 7 and RFC 4122 variant bits whose tag
byte is not a code of the active domain gives `get_category = none` and
`is_valid = false`, while the basic validity check still accepts it. -/
theorem C4_unknown_tag (st : ProviderState) (n : Nat)
    (hver : (n >>> 76) &&& 0xF = 7) (hvar : (n >>> 62) &&& 3 = 2)
    (htag : ∀ m ∈ get_categories st, m.value ≠ (((n >>> 68) &&& 0xFF : Nat) : Int)) :
    get_category st (UUIDInput.val n) = none ∧
      is_valid st (UUIDInput.val n) = false ∧
      _basic_validity_check (UUIDInput.val n) = some n := by
  have hcheck := (basic_check_val_iff n).mpr ⟨hver, hvar⟩
  have hnone : value2member (get_categories st) (((n >>> 68) &&& 0xFF : Nat) : Int) = none :=
    value2member_eq_none _ _ htag
  refine ⟨?_, ?_, hcheck⟩
  · simp only [get_category, hcheck]
    exact hnone
  · simp only [is_valid, get_category, hcheck, hnone]
    rfl

theorem C4_unknown_tag_witness :
    get_category ⟨none⟩ (UUIDInput.val (7 * 2 ^ 76 + 99 * 2 ^ 68 + 2 ^ 63)) = none ∧
      is_valid ⟨none⟩ (UUIDInput.val (7 * 2 ^ 76 + 99 * 2 ^ 68 + 2 ^ 63)) = false ∧
      _basic_validity_check (UUIDInput.val (7 * 2 ^ 76 + 99 * 2 ^ 68 + 2 ^ 63)) =
        some (7 * 2 ^ 76 + 99 * 2 ^ 68 + 2 ^ 63) :=
  C4_unknown_tag ⟨none⟩ (7 * 2 ^ 76 + 99 * 2 ^ 68 + 2 ^ 63)
    (by decide) (by decide) (by decide)

/-- C8: an identifier minted with a member of domain A becomes invalid after
the registry switches to a domain B without that code, and valid again under
a domain C that contains the code. -/
theorem C8_dynamic_rebinding (st1 st2 : ProviderState) (c : CatMember) (t : Nat)
    (e : List Nat) (n : Nat) (rest : List Nat) (domB domC : CategoryEnum)
    (hnew : new t e c = (Except.ok n, rest))
    (hB : ∀ m ∈ domB, m.value ≠ c.value)
    (hC : ∃ m ∈ domC, m.value = c.value) :
    is_valid (set_categories st1 domB) (UUIDInput.val n) = false ∧
      is_valid (set_categories st2 domC) (UUIDInput.val n) = true := by
  obtain ⟨-, -, hcheck, -, -, -, -, htag⟩ := mint_props t e c n rest hnew
  constructor
  · have hnone : value2member domB (((n >>> 68) &&& 0xFF : Nat) : Int) = none :=
      value2member_eq_none _ _ (fun m hm => by rw [htag]; exact hB m hm)
    simp only [is_valid, get_category, hcheck]
    show (value2member (get_categories (set_categories st1 domB)) _).isSome = false
    rw [show get_categories (set_categories st1 domB) = domB from rfl, hnone]
    rfl
  · have hsome : (value2member domC (((n >>> 68) &&& 0xFF : Nat) : Int)).isSome :=
      value2member_isSome _ _ (by rw [htag]; exact hC)
    simp only [is_valid, get_category, hcheck]
    show (value2member (get_categories (set_categories st2 domC)) _).isSome = true
    rw [show get_categories (set_categories st2 domC) = domC from rfl]
    exact hsome

theorem C8_dynamic_rebinding_witness :
    is_valid (set_categories ⟨none⟩ Category)
        (UUIDInput.val (7 * 2 ^ 76 + 10 * 2 ^ 68 + 2 ^ 63)) = false ∧
      is_valid (set_categories ⟨none⟩ [⟨"RED", 10⟩])
        (UUIDInput.val (7 * 2 ^ 76 + 10 * 2 ^ 68 + 2 ^ 63)) = true :=
  C8_dynamic_rebinding ⟨none⟩ ⟨none⟩ ⟨"RED", 10⟩ 0 []
    (7 * 2 ^ 76 + 10 * 2 ^ 68 + 2 ^ 63) [] Category [⟨"RED", 10⟩]
    (by rfl) (by decide) (by decide)

/-- C10: `new` never consults the registry: an in-range member mints
successfully even when its code is absent from the active domain, and the
result then reads back as no category and invalid under that domain. -/
theorem C10_mint_ignores_registry (st : ProviderState) (t : Nat) (e : List Nat)
    (c : CatMember) (h0 : 0 ≤ c.value) (h1 : c.value ≤ 255)
    (habs : ∀ m ∈ get_categories st, m.value ≠ c.value) :
    (new t e c).1.isOk = true ∧
      ∀ n rest, new t e c = (Except.ok n, rest) →
        get_category st (UUIDInput.val n) = none ∧
          is_valid st (UUIDInput.val n) = false := by
  constructor
  · rw [new_ok_val t e c h0 h1]
    rfl
  · intro n rest hnew
    obtain ⟨-, -, hcheck, -, -, -, -, htag⟩ := mint_props t e c n rest hnew
    have hnone : value2member (get_categories st) (((n >>> 68) &&& 0xFF : Nat) : Int) = none :=
      value2member_eq_none _ _ (fun m hm => by rw [htag]; exact habs m hm)
    constructor
    · simp only [get_category, hcheck]
      exact hnone
    · simp only [is_valid, get_category, hcheck, hnone]
      rfl

theorem C10_mint_ignores_registry_witness :
    (new 0 [] ⟨"GREEN", 20⟩).1.isOk = true ∧
      (get_category ⟨none⟩ (UUIDInput.val (7 * 2 ^ 76 + 20 * 2 ^ 68 + 2 ^ 63)) = none ∧
        is_valid ⟨none⟩ (UUIDInput.val (7 * 2 ^ 76 + 20 * 2 ^ 68 + 2 ^ 63)) = false) :=
  ⟨(C10_mint_ignores_registry ⟨none⟩ 0 [] ⟨"GREEN", 20⟩ (by decide) (by decide)
      (by decide)).1,
    (C10_mint_ignores_registry ⟨none⟩ 0 [] ⟨"GREEN", 20⟩ (by decide) (by decide)
      (by decide)).2 (7 * 2 ^ 76 + 20 * 2 ^ 68 + 2 ^ 63) [] (by rfl)⟩

/-- C5 counterexample: the parsed payload with the single field
`TOO_BIG = 300` — a code outside the representable range 0..255 — is accepted
by `set_categories_from_json` without any error: no `ConfigurationError` is
raised at construction time. -/
theorem C5_cex :
    set_categories_from_json (Except.ok (PyJson.obj [("TOO_BIG", 300)])) "DynamicCategory"
        ⟨none⟩ = Except.ok ⟨some [⟨"TOO_BIG", 300⟩]⟩ ∧
      ¬(0 ≤ (300 : Int) ∧ (300 : Int) ≤ 255) :=
  ⟨by rfl, by decide⟩

/-- C5 amended: `set_categories_from_json` performs no range validation on
codes: the payload whose resulting enumeration contains the out-of-range code
300 is not, for that reason, rejected — it is accepted and its member stored
with code 300 as-is; the out-of-range code fails only later, at mint, with
the range error. -/
theorem C5_amended (t : Nat) (e : List Nat) :
    set_categories_from_json (Except.ok (PyJson.obj [("TOO_BIG", 300)])) "DynamicCategory"
        ⟨none⟩ = Except.ok ⟨some [⟨"TOO_BIG", 300⟩]⟩ ∧
      new t e ⟨"TOO_BIG", 300⟩ =
        (Except.error "Category value must be in range 0..255", e) :=
  ⟨by rfl, new_err t e ⟨"TOO_BIG", 300⟩ (by decide)⟩

theorem C5_amended_witness :
    set_categories_from_json (Except.ok (PyJson.obj [("TOO_BIG", 300)])) "DynamicCategory"
        ⟨none⟩ = Except.ok ⟨some [⟨"TOO_BIG", 300⟩]⟩ ∧
      new 0 [] ⟨"TOO_BIG", 300⟩ =
        (Except.error "Category value must be in range 0..255", []) :=
  C5_amended 0 []

/-- C7: at the payload parsed as the single sunder-named field `_a_ = 1`, the
`Enum` functional API raises a `ValueError`, which the source's
`except (json.JSONDecodeError, TypeError)` clause does not catch: the failure
escapes as a bare `ValueError` with no `ConfigurationError` wrapper and no
`__cause__`, contradicting the claim (and the source's own comment) that
every failure is wrapped with its cause.  The registry state is untouched. -/
theorem C7_unwrapped_escape :
    set_categories_from_json (Except.ok (PyJson.obj [("_a_", 1)])) "DynamicCategory"
        ⟨some Category⟩ =
      Except.error ⟨PyErr.valueError "_sunder_ names are reserved for future Enum use", none⟩ :=
  by rfl

theorem basic_check_isSome_iff (n : Nat) :
    (_basic_validity_check (UUIDInput.val n)).isSome = true ↔
      ((n >>> 76) &&& 0xF = 7 ∧ (n >>> 62) &&& 3 = 2) := by
  constructor
  · intro h
    rcases basic_check_val_cases n with hnone | hsome
    · rw [hnone] at h
      exact Bool.noConfusion h
    · exact (basic_check_val_iff n).mp hsome
  · intro hb
    rw [(basic_check_val_iff n).mpr hb]
    rfl

/-- C6: the basic validity check rejects every textual input that fails to
parse as a UUID string; a parsed or typed value is accepted exactly when its
version nibble is 7 and its variant bits are 0b10; and the outcome never
depends on the tag byte (bits 68-75).  The check takes no registry state at
all, so it cannot depend on it. -/
theorem C6_basic_check_structural :
    (∀ s, uuid_from_string s = none → _basic_validity_check (UUIDInput.str s) = none) ∧
      (∀ n, (_basic_validity_check (UUIDInput.val n)).isSome = true ↔
        ((n >>> 76) &&& 0xF = 7 ∧ (n >>> 62) &&& 3 = 2)) ∧
      (∀ s n, uuid_from_string s = some n →
        ((_basic_validity_check (UUIDInput.str s)).isSome = true ↔
          ((n >>> 76) &&& 0xF = 7 ∧ (n >>> 62) &&& 3 = 2))) ∧
      ∀ n tg, tg < 256 →
        (_basic_validity_check (UUIDInput.val (setTag n tg))).isSome =
          (_basic_validity_check (UUIDInput.val n)).isSome := by
  refine ⟨?_, basic_check_isSome_iff, ?_, ?_⟩
  · intro s h
    simp only [_basic_validity_check, h]
  · intro s n h
    have hsame : _basic_validity_check (UUIDInput.str s) =
        _basic_validity_check (UUIDInput.val n) := by
      simp only [_basic_validity_check, h]
    rw [hsame]
    exact basic_check_isSome_iff n
  · intro n tg htg
    obtain ⟨p76, p62, -⟩ := setTag_preserves n tg htg
    have h1 := basic_check_isSome_iff (setTag n tg)
    have h2 := basic_check_isSome_iff n
    rw [p76, p62] at h1
    by_cases hcond : (n >>> 76) &&& 0xF = 7 ∧ (n >>> 62) &&& 3 = 2
    · rw [h1.mpr hcond, h2.mpr hcond]
    · have e1 : (_basic_validity_check (UUIDInput.val (setTag n tg))).isSome = false := by
        cases he : (_basic_validity_check (UUIDInput.val (setTag n tg))).isSome with
        | false => rfl
        | true => exact absurd (h1.mp he) hcond
      have e2 : (_basic_validity_check (UUIDInput.val n)).isSome = false := by
        cases he : (_basic_validity_check (UUIDInput.val n)).isSome with
        | false => rfl
        | true => exact absurd (h2.mp he) hcond
      rw [e1, e2]

theorem C6_basic_check_structural_witness :
    _basic_validity_check (UUIDInput.str "not-a-uuid") = none ∧
      (_basic_validity_check (UUIDInput.val (7 * 2 ^ 76 + 2 ^ 63))).isSome = true ∧
      (_basic_validity_check (UUIDInput.val (setTag (2 ^ 63) 42))).isSome =
        (_basic_validity_check (UUIDInput.val (2 ^ 63))).isSome :=
  ⟨C6_basic_check_structural.1 "not-a-uuid" (by rfl),
    (C6_basic_check_structural.2.1 (7 * 2 ^ 76 + 2 ^ 63)).mpr (by decide),
    C6_basic_check_structural.2.2.2 (2 ^ 63) 42 (by decide)⟩

end Uuidcat
